import Mathlib

/-!
Verification of the session/protocol core of the `remote-mcp-server-authless`
repository (three MCP tool-sets — sequential thinking, playwright, browser-use —
sharing a JSON-RPC-style dispatcher).

Conventions of the shallow embedding:
* JS `Map<string, T>` becomes an insertion-ordered association list
  `List (String × T)`; `Map.set` on an existing key updates in place
  (`setEntry`), `Map.get` is `lookupEntry`, deletion during cleanup is
  `List.filter` (JS allows deleting while iterating a `Map`).
* Timestamps (`Date`, `Date.now()`) are `Nat` milliseconds; each handler takes
  the current time `now : Nat` explicitly.
* JS global mutable stores become explicit state passing: a handler maps a
  store to `(store', Except String result)`; a thrown JS exception is
  `Except.error` and — exactly as with a mutable global — the store mutations
  made before the throw are kept in `store'`.
* JS truthiness tests on possibly-undefined strings/numbers (`if (!x)`,
  `if (branchId && branchFromThought)`) become `truthyStr` / `truthyNat` on
  `Option`; an absent argument is `none`.
* `Math.random()`-driven choices (the fabricated action interpreter) are an
  external collaborator per the spec; the drawn index is passed in as `pick`.
  The fabricated `result` blob copied into history entries (message strings,
  confidence numbers) is elided; the fields the state logic reads
  (instruction, action, success, timestamp) are kept.
-/

/-- First value bound to key `k` in an insertion-ordered association list
(JS `Map.get`). -/
def lookupEntry {α : Type} (k : String) : List (String × α) → Option α
  | [] => none
  | (k', v) :: rest => if k' = k then some v else lookupEntry k rest

/-- JS `Map.set`: update in place when the key exists (keeping its position),
otherwise append at the end. -/
def setEntry {α : Type} (k : String) (v : α) : List (String × α) → List (String × α)
  | [] => [(k, v)]
  | (k', v') :: rest => if k' = k then (k, v) :: rest else (k', v') :: setEntry k v rest

/-- The keys of an association list, in order. -/
def keysOf {α : Type} (l : List (String × α)) : List String := l.map Prod.fst

/-- JS truthiness of a possibly-undefined string: `undefined` and `""` are falsy. -/
def truthyStr : Option String → Bool
  | none => false
  | some s => decide (s ≠ "")

/-- JS truthiness of a possibly-undefined number: `undefined` and `0` are falsy. -/
def truthyNat : Option Nat → Bool
  | none => false
  | some n => decide (n ≠ 0)

/-- JS `Math.round((tn / tt) * 100)` for natural `tn`, `tt` with `tt > 0`:
round half up, computed exactly as `⌊(100·tn + tt/2) / tt⌋ = ⌊(200·tn + tt) / (2·tt)⌋`. -/
def progressPercentage (tn tt : Nat) : Nat := (200 * tn + tt) / (2 * tt)

namespace SequentialThinking

/-- `ThinkingStep` of `sequential-thinking/index.ts`. `thought` is `Option`
because the handler never checks its presence (the schema alone declares it
required) and stores whatever was passed. -/
structure ThinkingStep where
  thoughtNumber : Nat
  thought : Option String
  timestamp : Nat
  isRevision : Bool
  revisesThought : Option Nat
  branchFromThought : Option Nat
  branchId : Option String
  deriving DecidableEq, Repr

/-- `ThinkingSession` of `sequential-thinking/index.ts`; `branches` is the
`Map<string, ThinkingStep[]>`. -/
structure ThinkingSession where
  sessionId : String
  totalThoughts : Nat
  currentThought : Nat
  steps : List ThinkingStep
  branches : List (String × List ThinkingStep)
  created : Nat
  lastUpdated : Nat
  isCompleted : Bool
  deriving DecidableEq, Repr

/-- The module-global `sessions` map. -/
def STStore : Type := List (String × ThinkingSession)

/-- `SESSION_TIMEOUT = 3600000` (1 hour). -/
def SESSION_TIMEOUT : Nat := 3600000

/-- `cleanupOldSessions` of `sequential-thinking/index.ts`: delete every
session with `lastUpdated < now - SESSION_TIMEOUT` (with `Nat` truncated
subtraction: for `now < SESSION_TIMEOUT` the JS cutoff is a negative date and
no nonnegative timestamp precedes it, matching `now - SESSION_TIMEOUT = 0`). -/
def cleanupOldSessions (now : Nat) (store : STStore) : STStore :=
  store.filter (fun e => !decide (e.2.lastUpdated < now - SESSION_TIMEOUT))

/-- Arguments of the `sequential_thinking` tool. Destructuring defaults:
`sessionId = "default"` and `isRevision = false` apply only when the argument
is absent (`none`). -/
structure STArgs where
  thought : Option String
  nextThoughtNeeded : Bool
  thoughtNumber : Nat
  totalThoughts : Nat
  sessionId : Option String := none
  isRevision : Bool := false
  revisesThought : Option Nat := none
  branchFromThought : Option Nat := none
  branchId : Option String := none
  deriving DecidableEq, Repr

/-- `sessionId = "default"` destructuring default. -/
def defaultSid (a : STArgs) : String := a.sessionId.getD "default"

/-- The fresh session built when `sessions.get(sessionId)` misses. -/
def freshSession (sid : String) (now : Nat) : ThinkingSession :=
  { sessionId := sid, totalThoughts := 0, currentThought := 0, steps := [],
    branches := [], created := now, lastUpdated := now, isCompleted := false }

/-- The `ThinkingStep` record built from the call's arguments. -/
def mkStep (a : STArgs) (now : Nat) : ThinkingStep :=
  { thoughtNumber := a.thoughtNumber, thought := a.thought, timestamp := now,
    isRevision := a.isRevision, revisesThought := a.revisesThought,
    branchFromThought := a.branchFromThought, branchId := a.branchId }

/-- The JS guard `if (branchId && branchFromThought)`. -/
def isBranchCall (a : STArgs) : Bool :=
  truthyStr a.branchId && truthyNat a.branchFromThought

/-- Lines 69–93 of the handler: append the step (to the branch when the guard
holds, else to `steps`) and update the session metadata. -/
def applyStep (a : STArgs) (now : Nat) (s : ThinkingSession) : ThinkingSession :=
  let step := mkStep a now
  let s1 :=
    if isBranchCall a then
      let b := a.branchId.getD ""
      { s with branches := setEntry b ((lookupEntry b s.branches).getD [] ++ [step]) s.branches }
    else
      { s with steps := s.steps ++ [step] }
  { s1 with
    currentThought := a.thoughtNumber,
    totalThoughts := max s1.totalThoughts a.totalThoughts,
    lastUpdated := now,
    isCompleted := !a.nextThoughtNeeded }

/-- The success payload of `handleSequentialThinking` (the JSON text's fields
that carry state: the static strings are omitted). -/
structure STResult where
  status : String
  sessionId : String
  currentThought : Nat
  totalThoughts : Nat
  progress : Nat
  isCompleted : Bool
  totalSteps : Nat
  branchCount : Nat
  deriving DecidableEq, Repr

/-- `handleSequentialThinking` of `sequential-thinking/index.ts`. Order of
effects as in the source: get-or-create (a fresh session is `Map.set` at the
end of the store), append step, update metadata, `cleanupOldSessions()`, then
the `console.log` line dereferences `thought.substring` — so a call with an
absent `thought` throws a `TypeError` only after all store mutations. -/
def handleSequentialThinking (a : STArgs) (now : Nat) (store : STStore) :
    STStore × Except String STResult :=
  let sid := defaultSid a
  let s0 := (lookupEntry sid store).getD (freshSession sid now)
  let s1 := applyStep a now s0
  let store1 := cleanupOldSessions now (setEntry sid s1 store)
  (store1,
    match a.thought with
    | none => .error "TypeError: Cannot read properties of undefined (reading 'substring')"
    | some _ =>
      .ok
        { status := "success", sessionId := sid, currentThought := a.thoughtNumber,
          totalThoughts := a.totalThoughts,
          progress := progressPercentage a.thoughtNumber a.totalThoughts,
          isCompleted := !a.nextThoughtNeeded,
          totalSteps := s1.steps.length, branchCount := s1.branches.length })

end SequentialThinking

namespace SharedAuth

/-- JS `str.split(' ')` (a one-character string separator splits at every
occurrence, keeping empty pieces), on the character list of the string:
`"a b".split(' ') = ["a","b"]`, `"a ".split(' ') = ["a",""]`,
`"".split(' ') = [""]`. -/
def splitOnSpace : List Char → List (List Char)
  | [] => [[]]
  | c :: rest =>
    if c = ' ' then [] :: splitOnSpace rest
    else
      match splitOnSpace rest with
      | [] => [[c]]
      | h :: t => (c :: h) :: t

/-- `AuthResult` of `shared/auth.ts`. -/
structure AuthResult where
  success : Bool
  error : Option String := none
  apiKey : Option String := none
  deriving DecidableEq, Repr

/-- `validateOpenAIKey` of `shared/auth.ts`, on the `Authorization` header it
reads from the request (`""` models a falsy/absent header, matching the JS
`!authHeader` guard). `authHeader.split(' ')` is `splitOnSpace` on the
character list; `startsWith 'sk-'` is `List.isPrefixOf`; `.length` is the
character count (equal to the JS UTF-16 length on ASCII keys). -/
def validateOpenAIKey (authHeader : String) : AuthResult :=
  if authHeader = "" then
    { success := false,
      error := some "Missing Authorization header. Required format: Bearer sk-..." }
  else
    let parts := splitOnSpace authHeader.data
    if parts.length ≠ 2 ∨ parts.headD [] ≠ "Bearer".data then
      { success := false,
        error := some "Invalid Authorization format. Required format: Bearer sk-..." }
    else
      let apiKey := parts.getD 1 []
      if ¬ "sk-".data.isPrefixOf apiKey ∨ apiKey.length < 20 then
        { success := false,
          error := some "Invalid OpenAI API key format. Must start with sk- and be at least 20 characters" }
      else
        { success := true, apiKey := some (String.mk apiKey) }

end SharedAuth

namespace Playwright

/-- `BrowserSession` of `playwright/index.ts`. -/
structure BrowserSession where
  sessionId : String
  created : Nat
  lastUsed : Nat
  pageUrl : Option String := none
  isActive : Bool
  deriving DecidableEq, Repr

/-- The module-global `browserSessions` map. -/
def PWStore : Type := List (String × BrowserSession)

/-- `SESSION_TIMEOUT = 1800000` (30 minutes). -/
def SESSION_TIMEOUT : Nat := 1800000

/-- `cleanupOldSessions` of `playwright/index.ts` (delete when
`lastUsed < now - SESSION_TIMEOUT`). -/
def cleanupOldSessions (now : Nat) (store : PWStore) : PWStore :=
  store.filter (fun e => !decide (e.2.lastUsed < now - SESSION_TIMEOUT))

/-- The success payload fields of the playwright handlers that carry state. -/
structure PWResult where
  sessionId : String
  action : String
  currentUrl : Option String
  deriving DecidableEq, Repr

/-- Arguments of `playwright_navigate` (the unused `timeout` is omitted). -/
structure NavArgs where
  url : Option String
  sessionId : Option String := none
  deriving DecidableEq, Repr

/-- `navigateHandler` of `playwright/index.ts`. The platform URL constructor
(`new URL(url)`) is the external collaborator `validURL`: the handler only
observes whether it throws. Sweep first, validate, then get-or-create. -/
def navigateHandler (validURL : String → Bool) (a : NavArgs) (now : Nat) (store : PWStore) :
    PWStore × Except String PWResult :=
  let store1 := cleanupOldSessions now store
  if ¬ truthyStr a.url then (store1, .error "URL is required for navigation")
  else
    let url := a.url.getD ""
    if ¬ validURL url then (store1, .error "Invalid URL format provided")
    else
      let sid := a.sessionId.getD "default"
      let s0 := (lookupEntry sid store1).getD
        { sessionId := sid, created := now, lastUsed := now, isActive := true }
      let s1 := { s0 with lastUsed := now, pageUrl := some url }
      (setEntry sid s1 store1, .ok { sessionId := sid, action := "navigate", currentUrl := some url })

/-- Arguments of `playwright_click` (the unused `timeout` is omitted). -/
structure ClickArgs where
  selector : Option String
  sessionId : Option String := none
  deriving DecidableEq, Repr

/-- `clickHandler` of `playwright/index.ts`: sweep, require a truthy selector,
then a missing session is a thrown "not found" error — no lazy creation. -/
def clickHandler (a : ClickArgs) (now : Nat) (store : PWStore) :
    PWStore × Except String PWResult :=
  let store1 := cleanupOldSessions now store
  if ¬ truthyStr a.selector then (store1, .error "CSS selector is required for clicking")
  else
    let sid := a.sessionId.getD "default"
    match lookupEntry sid store1 with
    | none =>
      (store1, .error ("Browser session '" ++ sid ++ "' not found. Please navigate to a page first."))
    | some s =>
      let s1 := { s with lastUsed := now }
      (setEntry sid s1 store1, .ok { sessionId := sid, action := "click", currentUrl := s.pageUrl })

end Playwright

namespace BrowserUse

/-- `ConversationEntry` of `browser-use/index.ts`. The nested fabricated
`result` payload (simulation of the automation backend) is elided; the fields
the session logic stores and later reads back are kept. -/
structure ConversationEntry where
  timestamp : Nat
  instruction : String
  action : String
  success : Bool
  deriving DecidableEq, Repr

/-- `BrowserUseSession` of `browser-use/index.ts`. -/
structure BrowserUseSession where
  sessionId : String
  created : Nat
  lastUsed : Nat
  currentUrl : Option String := none
  isActive : Bool
  apiKey : String
  conversationHistory : List ConversationEntry
  deriving DecidableEq, Repr

/-- The module-global `browserUseSessions` map. -/
def BUStore : Type := List (String × BrowserUseSession)

/-- `SESSION_TIMEOUT = 3600000` (1 hour for authenticated sessions). -/
def SESSION_TIMEOUT : Nat := 3600000

/-- `cleanupOldSessions` of `browser-use/index.ts`. -/
def cleanupOldSessions (now : Nat) (store : BUStore) : BUStore :=
  store.filter (fun e => !decide (e.2.lastUsed < now - SESSION_TIMEOUT))

/-- The `mockActions` array the fabricated interpreter draws from. -/
def mockActions : List String :=
  ["navigate_to_url", "click_element", "fill_input", "extract_text",
   "take_screenshot", "scroll_page"]

/-- Arguments of `browseruse_natural_action`. -/
structure NatActionArgs where
  instruction : Option String
  sessionId : Option String := none
  apiKey : Option String := none
  deriving DecidableEq, Repr

/-- The success payload fields of `browseruse_natural_action` that carry
session state. -/
structure NatActionResult where
  sessionId : String
  instruction : String
  action : String
  conversationLength : Nat
  deriving DecidableEq, Repr

/-- Lines 117–122 of `browser-use/index.ts`: push the entry, then
`if (length > 50) history = history.slice(-50)` — `slice(-50)` keeps the last
50 elements, i.e. drops `length - 50` from the front. -/
def capPush (h : List ConversationEntry) (e : ConversationEntry) : List ConversationEntry :=
  let h1 := h ++ [e]
  if h1.length > 50 then h1.drop (h1.length - 50) else h1

/-- `naturalLanguageActionHandler` of `browser-use/index.ts`: sweep; require a
truthy instruction and apiKey; shape-validate the key by rebuilding the header
`"Bearer " ++ apiKey` and calling `validateOpenAIKey`; get-or-create the
session (a fresh one stores `apiKey.substring(0, 10) + "..."`); push the
conversation entry and cap the history at the most recent 50 (`slice(-50)` is
`drop (length - 50)`). `pick` is the `Math.floor(Math.random() * 6)` draw. -/
def naturalLanguageActionHandler (a : NatActionArgs) (pick now : Nat) (store : BUStore) :
    BUStore × Except String NatActionResult :=
  let store1 := cleanupOldSessions now store
  if ¬ truthyStr a.instruction then
    (store1, .error "Natural language instruction is required")
  else if ¬ truthyStr a.apiKey then
    (store1, .error "OpenAI API key is required for browser-use functionality")
  else
    let apiKey := a.apiKey.getD ""
    let authResult := SharedAuth.validateOpenAIKey ("Bearer " ++ apiKey)
    if ¬ authResult.success then
      (store1, .error ("Authentication failed: " ++ (authResult.error.getD "")))
    else
      let sid := a.sessionId.getD "default"
      let s0 := (lookupEntry sid store1).getD
        { sessionId := sid, created := now, lastUsed := now, isActive := true,
          apiKey := apiKey.take 10 ++ "...", conversationHistory := [] }
      let instruction := a.instruction.getD ""
      let entry : ConversationEntry :=
        { timestamp := now, instruction := instruction,
          action := mockActions.getD (pick % 6) "", success := true }
      let history2 := capPush s0.conversationHistory entry
      let s1 := { s0 with lastUsed := now, conversationHistory := history2 }
      (setEntry sid s1 store1, .ok
        { sessionId := sid, instruction := instruction, action := entry.action,
          conversationLength := history2.length })

/-- Arguments of `browseruse_navigate`. -/
structure BUNavArgs where
  url : Option String := none
  instruction : Option String := none
  sessionId : Option String := none
  apiKey : Option String := none
  deriving DecidableEq, Repr

/-- The success payload fields of `browseruse_navigate` that carry state. -/
structure BUNavResult where
  sessionId : String
  currentUrl : Option String
  deriving DecidableEq, Repr

/-- `browserUseNavigateHandler` of `browser-use/index.ts`: sweep; require a
truthy url or instruction, a truthy apiKey, and a valid key shape; then a
missing session is a thrown "not found" error — this handler never creates a
session. On success it sets `lastUsed` and `currentUrl` (to the raw `url`
argument, possibly absent). -/
def browserUseNavigateHandler (a : BUNavArgs) (now : Nat) (store : BUStore) :
    BUStore × Except String BUNavResult :=
  let store1 := cleanupOldSessions now store
  if ¬ (truthyStr a.url || truthyStr a.instruction) then
    (store1, .error "Either URL or natural language instruction is required")
  else if ¬ truthyStr a.apiKey then
    (store1, .error "OpenAI API key is required for browser-use functionality")
  else
    let apiKey := a.apiKey.getD ""
    let authResult := SharedAuth.validateOpenAIKey ("Bearer " ++ apiKey)
    if ¬ authResult.success then
      (store1, .error ("Authentication failed: " ++ (authResult.error.getD "")))
    else
      let sid := a.sessionId.getD "default"
      match lookupEntry sid store1 with
      | none =>
        (store1, .error ("Session '" ++ sid ++ "' not found. Please start with a natural language action first."))
      | some s =>
        let s1 := { s with lastUsed := now, currentUrl := a.url }
        (setEntry sid s1 store1, .ok { sessionId := sid, currentUrl := a.url })

/-- Arguments of `browseruse_conversation_history`. -/
structure HistoryArgs where
  sessionId : Option String := none
  limit : Option Nat := none
  deriving DecidableEq, Repr

/-- The payload of `browseruse_conversation_history` that carries state. -/
structure HistoryResult where
  sessionId : String
  totalEntries : Nat
  returnedEntries : Nat
  deriving DecidableEq, Repr

/-- `getConversationHistoryHandler` of `browser-use/index.ts`: sweep, look up
(missing is a thrown "not found"), refresh `lastUsed`, and report
`history.slice(-limit)` (`limit` defaults to 10; `slice(-0)` is the whole
array). -/
def getConversationHistoryHandler (a : HistoryArgs) (now : Nat) (store : BUStore) :
    BUStore × Except String HistoryResult :=
  let store1 := cleanupOldSessions now store
  let sid := a.sessionId.getD "default"
  let limit := a.limit.getD 10
  match lookupEntry sid store1 with
  | none => (store1, .error ("Session '" ++ sid ++ "' not found"))
  | some s =>
    let s1 := { s with lastUsed := now }
    let sliced :=
      if limit = 0 then s.conversationHistory
      else s.conversationHistory.drop (s.conversationHistory.length - limit)
    (setEntry sid s1 store1, .ok
      { sessionId := sid, totalEntries := s.conversationHistory.length,
        returnedEntries := sliced.length })

/-- One listed row of `browseruse_list_sessions` (state-carrying fields). -/
structure SessionSummary where
  sessionId : String
  currentUrl : Option String
  isActive : Bool
  conversationLength : Nat
  apiKeyPreview : String
  deriving DecidableEq, Repr

/-- `listBrowserUseSessionsHandler` of `browser-use/index.ts`: sweep, then
snapshot every remaining session; `apiKeyPreview` is the stored (already
truncated) `apiKey` field, exposed verbatim. -/
def listBrowserUseSessionsHandler (now : Nat) (store : BUStore) :
    BUStore × List SessionSummary :=
  let store1 := cleanupOldSessions now store
  (store1, store1.map (fun e =>
    { sessionId := e.2.sessionId, currentUrl := e.2.currentUrl, isActive := e.2.isActive,
      conversationLength := e.2.conversationHistory.length, apiKeyPreview := e.2.apiKey }))

/-- A sequence of `browseruse_natural_action` calls on one session: instruction
list `ins`, fixed credential `key`, fixed session id `sid`; the collaborator
inputs (`pick`, `now`) are fixed at 0 — the history bookkeeping does not
depend on them. -/
def runNaturalActions (key sid : String) (ins : List String) (store : BUStore) : BUStore :=
  ins.foldl
    (fun st i =>
      (naturalLanguageActionHandler { instruction := some i, sessionId := some sid, apiKey := some key } 0 0 st).1)
    store

/-- The conversation entry a `runNaturalActions` call records for
instruction `i` (`pick = 0` draws `mockActions[0]`, `now = 0`). -/
def entryFor (i : String) : ConversationEntry :=
  { timestamp := 0, instruction := i, action := "navigate_to_url", success := true }

/-- The browser-use stores reachable from the empty module-global store by
any sequence of browser-use handler invocations. -/
inductive Reachable : BUStore → Prop where
  | empty : Reachable []
  | natAction (a : NatActionArgs) (pick now : Nat) (st : BUStore) :
      Reachable st → Reachable (naturalLanguageActionHandler a pick now st).1
  | navigate (a : BUNavArgs) (now : Nat) (st : BUStore) :
      Reachable st → Reachable (browserUseNavigateHandler a now st).1
  | history (a : HistoryArgs) (now : Nat) (st : BUStore) :
      Reachable st → Reachable (getConversationHistoryHandler a now st).1
  | listSessions (now : Nat) (st : BUStore) :
      Reachable st → Reachable (listBrowserUseSessionsHandler now st).1

end BrowserUse

namespace Protocol

/-- A JSON-RPC request id (`number | string | null` in `shared/types.ts`). -/
inductive RequestId where
  | num (n : Int)
  | str (s : String)
  | null
  deriving DecidableEq, Repr

/-- A tool descriptor as listed by `tools/list` (the schema blob is opaque to
the dispatcher, which returns `config.tools` verbatim). -/
structure MCPTool where
  name : String
  description : String
  deriving DecidableEq, Repr

/-- `params` of a `tools/call` request. The argument payload type `α` is the
tool-set's argument shape. -/
structure CallParams (α : Type) where
  name : String
  arguments : α

/-- `MCPRequest` of `shared/types.ts` (for the three dispatched methods,
`params` only matters to `tools/call`). -/
structure MCPRequest (α : Type) where
  jsonrpc : String
  id : RequestId
  method : String
  params : Option (CallParams α)

/-- The `error` object of an MCP response. -/
structure ErrorObj where
  code : Int
  message : String
  deriving DecidableEq, Repr

/-- The `result` alternatives `handleMCPRequest` can produce. -/
inductive MCPResult (ρ : Type) where
  | initInfo (protocolVersion name version : String)
  | toolsList (tools : List MCPTool)
  | toolResult (r : ρ)
  deriving DecidableEq, Repr

/-- A response envelope: exactly one of `result` and `error` (the source
always sets exactly one). -/
inductive Outcome (ρ : Type) where
  | result (r : MCPResult ρ)
  | error (e : ErrorObj)
  deriving DecidableEq, Repr

/-- `MCPResponse` of `shared/types.ts`. -/
structure MCPResponse (ρ : Type) where
  jsonrpc : String
  id : RequestId
  outcome : Outcome ρ

/-- `ServerConfig` of `shared/types.ts`: server identity, tool descriptors,
and the handler table. A handler models the JS `async` function: it returns a
result or throws (`Except.error`). -/
structure ServerConfig (α ρ : Type) where
  name : String
  version : String
  tools : List MCPTool
  handlers : List (String × (α → Except String ρ))

/-- `handleMCPRequest` of `shared/mcp-protocol.ts`: dispatch on `method`; for
`tools/call` resolve the tool in `config.handlers` (an unknown name throws
`Unknown tool`), invoke it, and wrap the value as `result`; every throw inside
the `try` — including the `TypeError` from destructuring an absent `params`
and any handler exception — is caught and becomes `{code := -32000, message}`
carrying the request's id. -/
def handleMCPRequest {α ρ : Type} (req : MCPRequest α) (config : ServerConfig α ρ) :
    MCPResponse ρ :=
  match req.method with
  | "initialize" =>
    { jsonrpc := "2.0", id := req.id,
      outcome := .result (.initInfo "2024-11-05" config.name config.version) }
  | "tools/list" =>
    { jsonrpc := "2.0", id := req.id, outcome := .result (.toolsList config.tools) }
  | "tools/call" =>
    match req.params with
    | none =>
      { jsonrpc := "2.0", id := req.id,
        outcome := .error
          { code := -32000,
            message := "TypeError: Cannot destructure property 'name' of 'params' as it is undefined." } }
    | some p =>
      match lookupEntry p.name config.handlers with
      | none =>
        { jsonrpc := "2.0", id := req.id,
          outcome := .error { code := -32000, message := "Unknown tool: " ++ p.name } }
      | some handler =>
        match handler p.arguments with
        | .ok r => { jsonrpc := "2.0", id := req.id, outcome := .result (.toolResult r) }
        | .error msg =>
          { jsonrpc := "2.0", id := req.id, outcome := .error { code := -32000, message := msg } }
  | m =>
    { jsonrpc := "2.0", id := req.id,
      outcome := .error { code := -32000, message := "Unknown method: " ++ m } }

end Protocol

/-! ### Association-list lemmas (JS `Map` model) -/

theorem lookupEntry_cons {α : Type} (k k' : String) (v : α) (l : List (String × α)) :
    lookupEntry k ((k', v) :: l) = if k' = k then some v else lookupEntry k l := rfl

theorem setEntry_cons {α : Type} (k k' : String) (v v' : α) (l : List (String × α)) :
    setEntry k v ((k', v') :: l) =
      if k' = k then (k, v) :: l else (k', v') :: setEntry k v l := rfl

theorem keysOf_cons {α : Type} (k : String) (v : α) (l : List (String × α)) :
    keysOf ((k, v) :: l) = k :: keysOf l := rfl

theorem lookupEntry_setEntry_self {α : Type} (k : String) (v : α) (l : List (String × α)) :
    lookupEntry k (setEntry k v l) = some v := by
  induction l with
  | nil => simp [setEntry, lookupEntry]
  | cons e rest ih =>
    obtain ⟨k', v'⟩ := e
    by_cases h : k' = k
    · rw [setEntry_cons, if_pos h, lookupEntry_cons, if_pos rfl]
    · rw [setEntry_cons, if_neg h, lookupEntry_cons, if_neg h]
      exact ih

theorem lookupEntry_setEntry_ne {α : Type} {k k' : String} (v : α) (l : List (String × α))
    (h : k' ≠ k) : lookupEntry k (setEntry k' v l) = lookupEntry k l := by
  induction l with
  | nil => simp [setEntry, lookupEntry, h]
  | cons e rest ih =>
    obtain ⟨k₀, v₀⟩ := e
    by_cases h0 : k₀ = k'
    · rw [setEntry_cons, if_pos h0, lookupEntry_cons, lookupEntry_cons, if_neg (h0 ▸ h),
        if_neg (by rw [h0]; exact h)]
    · rw [setEntry_cons, if_neg h0, lookupEntry_cons, lookupEntry_cons]
      by_cases h1 : k₀ = k
      · rw [if_pos h1, if_pos h1]
      · rw [if_neg h1, if_neg h1]
        exact ih

theorem lookupEntry_mem {α : Type} {k : String} {v : α} {l : List (String × α)}
    (h : lookupEntry k l = some v) : (k, v) ∈ l := by
  induction l with
  | nil => simp [lookupEntry] at h
  | cons e rest ih =>
    obtain ⟨k', v'⟩ := e
    by_cases h0 : k' = k
    · rw [lookupEntry_cons, if_pos h0] at h
      cases h
      exact h0 ▸ List.mem_cons_self _ _
    · rw [lookupEntry_cons, if_neg h0] at h
      exact List.mem_cons_of_mem _ (ih h)

theorem mem_keysOf_of_lookupEntry {α : Type} {k : String} {v : α} {l : List (String × α)}
    (h : lookupEntry k l = some v) : k ∈ keysOf l := by
  simpa [keysOf] using List.mem_map_of_mem Prod.fst (lookupEntry_mem h)

theorem lookupEntry_eq_none_of_not_mem {α : Type} {k : String} {l : List (String × α)}
    (h : k ∉ keysOf l) : lookupEntry k l = none := by
  induction l with
  | nil => rfl
  | cons e rest ih =>
    obtain ⟨k', v'⟩ := e
    rw [keysOf_cons] at h
    have h1 : k ≠ k' := fun he => h (he ▸ List.mem_cons_self _ _)
    have h2 : k ∉ keysOf rest := fun hm => h (List.mem_cons_of_mem _ hm)
    rw [lookupEntry_cons, if_neg (fun he => h1 he.symm)]
    exact ih h2

theorem not_mem_keysOf_of_lookupEntry_none {α : Type} {k : String} {l : List (String × α)}
    (h : lookupEntry k l = none) : k ∉ keysOf l := by
  induction l with
  | nil => simp [keysOf]
  | cons e rest ih =>
    obtain ⟨k', v'⟩ := e
    by_cases h0 : k' = k
    · rw [lookupEntry_cons, if_pos h0] at h
      cases h
    · rw [lookupEntry_cons, if_neg h0] at h
      rw [keysOf_cons]
      intro hmem
      rcases List.mem_cons.mp hmem with he | hm
      · exact h0 he.symm
      · exact ih h hm

theorem lookupEntry_filter_keep {α : Type} {k : String} {v : α} {l : List (String × α)}
    {p : String × α → Bool} (h : lookupEntry k l = some v) (hp : p (k, v) = true) :
    lookupEntry k (l.filter p) = some v := by
  induction l with
  | nil => simp [lookupEntry] at h
  | cons e rest ih =>
    obtain ⟨k', v'⟩ := e
    rw [List.filter_cons]
    by_cases h0 : k' = k
    · rw [lookupEntry_cons, if_pos h0] at h
      cases h
      rw [if_pos (h0 ▸ hp), lookupEntry_cons, if_pos h0]
    · rw [lookupEntry_cons, if_neg h0] at h
      by_cases hpe : p (k', v') = true
      · rw [if_pos hpe, lookupEntry_cons, if_neg h0]
        exact ih h
      · rw [if_neg hpe]
        exact ih h

theorem lookupEntry_filter_none {α : Type} {k : String} {l : List (String × α)}
    {p : String × α → Bool} (h : lookupEntry k l = none) :
    lookupEntry k (l.filter p) = none :=
  lookupEntry_eq_none_of_not_mem fun hmem =>
    not_mem_keysOf_of_lookupEntry_none h
      (by
        simp only [keysOf] at hmem ⊢
        exact List.map_subset Prod.fst (List.filter_sublist _).subset hmem)

theorem lookupEntry_filter_drop {α : Type} {k : String} {v : α} {l : List (String × α)}
    {p : String × α → Bool} (hnd : (keysOf l).Nodup) (h : lookupEntry k l = some v)
    (hp : p (k, v) = false) : lookupEntry k (l.filter p) = none := by
  induction l with
  | nil => simp [lookupEntry] at h
  | cons e rest ih =>
    obtain ⟨k', v'⟩ := e
    rw [keysOf_cons, List.nodup_cons] at hnd
    rw [List.filter_cons]
    by_cases h0 : k' = k
    · rw [lookupEntry_cons, if_pos h0] at h
      cases h
      rw [if_neg (by rw [h0, hp]; exact Bool.false_ne_true)]
      exact lookupEntry_filter_none
        (lookupEntry_eq_none_of_not_mem (h0 ▸ hnd.1))
    · rw [lookupEntry_cons, if_neg h0] at h
      by_cases hpe : p (k', v') = true
      · rw [if_pos hpe, lookupEntry_cons, if_neg h0]
        exact ih hnd.2 h
      · rw [if_neg hpe]
        exact ih hnd.2 h

theorem lookupEntry_filter_some_imp {α : Type} {k : String} {v : α} {l : List (String × α)}
    {p : String × α → Bool} (hnd : (keysOf l).Nodup)
    (h : lookupEntry k (l.filter p) = some v) : lookupEntry k l = some v := by
  induction l with
  | nil => simp [lookupEntry, List.filter] at h
  | cons e rest ih =>
    obtain ⟨k', v'⟩ := e
    rw [keysOf_cons, List.nodup_cons] at hnd
    rw [List.filter_cons] at h
    by_cases hpe : p (k', v') = true
    · rw [if_pos hpe] at h
      by_cases h0 : k' = k
      · rw [lookupEntry_cons, if_pos h0] at h ⊢
        exact h
      · rw [lookupEntry_cons, if_neg h0] at h ⊢
        exact ih hnd.2 h
    · rw [if_neg hpe] at h
      have hrest := ih hnd.2 h
      by_cases h0 : k' = k
      · exact absurd (h0 ▸ mem_keysOf_of_lookupEntry hrest) hnd.1
      · rw [lookupEntry_cons, if_neg h0]
        exact hrest

theorem mem_keysOf_setEntry {α : Type} {j k : String} {v : α} {l : List (String × α)} :
    j ∈ keysOf (setEntry k v l) ↔ j = k ∨ j ∈ keysOf l := by
  induction l with
  | nil => simp [setEntry, keysOf]
  | cons e rest ih =>
    obtain ⟨k', v'⟩ := e
    by_cases h0 : k' = k
    · rw [setEntry_cons, if_pos h0, keysOf_cons, keysOf_cons]
      subst h0
      simp only [List.mem_cons]
      tauto
    · rw [setEntry_cons, if_neg h0, keysOf_cons, keysOf_cons]
      simp only [List.mem_cons, ih]
      tauto

theorem keysOf_nodup_setEntry {α : Type} {k : String} {v : α} {l : List (String × α)}
    (hnd : (keysOf l).Nodup) : (keysOf (setEntry k v l)).Nodup := by
  induction l with
  | nil => simp [setEntry, keysOf]
  | cons e rest ih =>
    obtain ⟨k', v'⟩ := e
    rw [keysOf_cons, List.nodup_cons] at hnd
    by_cases h0 : k' = k
    · rw [setEntry_cons, if_pos h0, keysOf_cons, List.nodup_cons]
      exact ⟨h0 ▸ hnd.1, hnd.2⟩
    · rw [setEntry_cons, if_neg h0, keysOf_cons, List.nodup_cons]
      refine ⟨fun hmem => ?_, ih hnd.2⟩
      rcases mem_keysOf_setEntry.mp hmem with he | hm
      · exact h0 he
      · exact hnd.1 hm

theorem keysOf_nodup_filter {α : Type} {l : List (String × α)} {p : String × α → Bool}
    (hnd : (keysOf l).Nodup) : (keysOf (l.filter p)).Nodup :=
  List.Nodup.sublist ((List.filter_sublist l).map Prod.fst) hnd

/-! ### Sequential-thinking handler: characterization lemmas -/

namespace SequentialThinking

theorem applyStep_totalThoughts (a : STArgs) (now : Nat) (s : ThinkingSession) :
    (applyStep a now s).totalThoughts = max s.totalThoughts a.totalThoughts := by
  simp only [applyStep]
  by_cases h : isBranchCall a = true <;> simp [h]

theorem applyStep_lastUpdated (a : STArgs) (now : Nat) (s : ThinkingSession) :
    (applyStep a now s).lastUpdated = now := by
  simp only [applyStep]

theorem applyStep_steps_branch {a : STArgs} (now : Nat) (s : ThinkingSession)
    (h : isBranchCall a = true) : (applyStep a now s).steps = s.steps := by
  simp [applyStep, h]

theorem applyStep_branches_branch {a : STArgs} {b : String} (now : Nat) (s : ThinkingSession)
    (h : isBranchCall a = true) (hb : a.branchId = some b) :
    (applyStep a now s).branches =
      setEntry b ((lookupEntry b s.branches).getD [] ++ [mkStep a now]) s.branches := by
  simp [applyStep, h, hb]

theorem applyStep_steps_main {a : STArgs} (now : Nat) (s : ThinkingSession)
    (h : isBranchCall a = false) : (applyStep a now s).steps = s.steps ++ [mkStep a now] := by
  simp [applyStep, h]

theorem applyStep_branches_main {a : STArgs} (now : Nat) (s : ThinkingSession)
    (h : isBranchCall a = false) : (applyStep a now s).branches = s.branches := by
  simp [applyStep, h]

/-- The store component of a `sequential_thinking` call, looked up at the
call's session id: the session is always present afterwards (the end-of-body
sweep cannot remove it, its `lastUpdated` having just been set to `now`), and
holds exactly the `applyStep` update of the previous state (or of a fresh
session when the id was absent). -/
theorem lookup_handle (a : STArgs) (now : Nat) (store : STStore) :
    lookupEntry (defaultSid a) (handleSequentialThinking a now store).1 =
      some (applyStep a now ((lookupEntry (defaultSid a) store).getD
        (freshSession (defaultSid a) now))) := by
  show lookupEntry (defaultSid a) (cleanupOldSessions now (setEntry (defaultSid a) _ store)) = _
  apply lookupEntry_filter_keep (lookupEntry_setEntry_self _ _ _)
  simp only [applyStep_lastUpdated]
  simp only [Bool.not_eq_true', decide_eq_false_iff_not]
  omega

end SequentialThinking

/-! ### Claims on the sequential-thinking tool-set -/

open SequentialThinking

/-- C6: submitting `(thoughtNumber=1, totalThoughts=3, nextThoughtNeeded=true)`,
then `(2,3,true)`, then `(3,3,false)` to a fresh session `"s1"` yields, after
the third call, `isCompleted = true` and `steps.length = 3`, and the third
call's payload reports 100% progress. -/
theorem claim_C6_scenario :
    (let r1 := handleSequentialThinking
      { thought := some "step one", nextThoughtNeeded := true, thoughtNumber := 1,
        totalThoughts := 3, sessionId := some "s1" } 1000 []
     let r2 := handleSequentialThinking
      { thought := some "step two", nextThoughtNeeded := true, thoughtNumber := 2,
        totalThoughts := 3, sessionId := some "s1" } 2000 r1.1
     let r3 := handleSequentialThinking
      { thought := some "step three", nextThoughtNeeded := false, thoughtNumber := 3,
        totalThoughts := 3, sessionId := some "s1" } 3000 r2.1
     (lookupEntry "s1" r3.1).map (fun s => (s.isCompleted, s.steps.length)) = some (true, 3)
       ∧ r3.2 = .ok
          { status := "success", sessionId := "s1", currentThought := 3, totalThoughts := 3,
            progress := 100, isCompleted := true, totalSteps := 3, branchCount := 0 }) :=
  ⟨rfl, rfl⟩

/-- C7: after every `sequential_thinking` call, the stored `totalThoughts` of
the call's session equals `max` of its previous value (0 when the session is
fresh) and the call's `totalThoughts` argument; in particular it never
decreases. -/
theorem claim_C7_totalThoughts_highwater (a : STArgs) (now : Nat) (store : STStore) :
    (lookupEntry (defaultSid a) (handleSequentialThinking a now store).1).map
        ThinkingSession.totalThoughts =
      some (max (((lookupEntry (defaultSid a) store).map ThinkingSession.totalThoughts).getD 0)
        a.totalThoughts) ∧
    ((lookupEntry (defaultSid a) store).map ThinkingSession.totalThoughts).getD 0 ≤
      (((lookupEntry (defaultSid a) (handleSequentialThinking a now store).1).map
        ThinkingSession.totalThoughts).getD 0) := by
  rw [lookup_handle]
  cases h : lookupEntry (defaultSid a) store with
  | none => simp [h, applyStep_totalThoughts, freshSession]
  | some s =>
    refine ⟨by simp [h, applyStep_totalThoughts], ?_⟩
    simp only [h, Option.map_some', Option.getD_some, applyStep_totalThoughts]
    exact Nat.le_max_left _ _

/-- The branch guard holds when `branchId` is a non-empty string and
`branchFromThought` a non-zero number. -/
theorem isBranchCall_of {a : STArgs} {b : String} {f : Nat} (hb : a.branchId = some b)
    (hne : b ≠ "") (hf : a.branchFromThought = some f) (hf0 : f ≠ 0) :
    isBranchCall a = true := by
  simp [isBranchCall, truthyStr, truthyNat, hb, hf, hne, hf0]

/-- Effect of one branch-guarded `sequential_thinking` call on the session:
main `steps` untouched, the step appended at the end of `branches[b]`. -/
theorem seqthink_branch_effect {a : STArgs} {b : String} (now : Nat) (store : STStore)
    (hb : a.branchId = some b) (hbr : isBranchCall a = true) :
    (lookupEntry (defaultSid a) (handleSequentialThinking a now store).1).map
        (fun s => (s.steps, lookupEntry b s.branches)) =
      some
        (((lookupEntry (defaultSid a) store).getD (freshSession (defaultSid a) now)).steps,
         some ((lookupEntry b ((lookupEntry (defaultSid a) store).getD
            (freshSession (defaultSid a) now)).branches).getD [] ++ [mkStep a now])) := by
  rw [lookup_handle]
  simp only [Option.map_some']
  rw [applyStep_steps_branch now _ hbr, applyStep_branches_branch now _ hbr hb,
    lookupEntry_setEntry_self]

/-- C1 counterexample: a step submitted with the non-null `branchId = "b"` but
no `branchFromThought` is appended to the main `steps` sequence (which then
holds a step carrying `branchId = some "b"`) and no branch log is created —
the handler requires `branchId && branchFromThought`, not `branchId` alone. -/
theorem claim_C1_counterexample :
    (let r := handleSequentialThinking
      { thought := some "alternative path", nextThoughtNeeded := true, thoughtNumber := 2,
        totalThoughts := 3, sessionId := some "s", branchId := some "b" } 1000 []
     (lookupEntry "s" r.1).map
        (fun s => (s.steps.map ThinkingStep.branchId, s.branches.length)) =
      some ([some "b"], 0)) := rfl

/-- C1 (amended): a step whose `branchId` is a non-null, non-empty string AND
whose `branchFromThought` is present and non-zero is appended to
`branches[branchId]` and never to the main `steps` sequence; two such steps
submitted with the same `branchId` to the same session appear in
`branches[branchId]` in submission order. -/
theorem claim_C1_branch_append {a1 a2 : STArgs} {b : String} {f1 f2 : Nat}
    (now1 now2 : Nat) (store : STStore)
    (h1b : a1.branchId = some b) (h1ne : b ≠ "") (h1f : a1.branchFromThought = some f1)
    (h1f0 : f1 ≠ 0)
    (h2b : a2.branchId = some b) (h2f : a2.branchFromThought = some f2) (h2f0 : f2 ≠ 0)
    (hsid : a2.sessionId = a1.sessionId) :
    (let sid := defaultSid a1
     let s0 := (lookupEntry sid store).getD (freshSession sid now1)
     let oldB := (lookupEntry b s0.branches).getD []
     let st1 := (handleSequentialThinking a1 now1 store).1
     let st2 := (handleSequentialThinking a2 now2 st1).1
     (lookupEntry sid st1).map (fun s => (s.steps, lookupEntry b s.branches)) =
        some (s0.steps, some (oldB ++ [mkStep a1 now1])) ∧
     (lookupEntry sid st2).map (fun s => (s.steps, lookupEntry b s.branches)) =
        some (s0.steps, some (oldB ++ [mkStep a1 now1, mkStep a2 now2]))) := by
  have hbr1 : isBranchCall a1 = true := isBranchCall_of h1b h1ne h1f h1f0
  have hbr2 : isBranchCall a2 = true := isBranchCall_of h2b h1ne h2f h2f0
  have hsid2 : defaultSid a2 = defaultSid a1 := by simp [defaultSid, hsid]
  refine ⟨seqthink_branch_effect now1 store h1b hbr1, ?_⟩
  have h1 := lookup_handle a1 now1 store
  have h2 := seqthink_branch_effect (a := a2) (b := b) now2
    (handleSequentialThinking a1 now1 store).1 h2b hbr2
  rw [hsid2] at h2
  rw [h1] at h2
  simp only [Option.getD_some] at h2
  rw [h2]
  rw [applyStep_steps_branch now1 _ hbr1, applyStep_branches_branch now1 _ hbr1 h1b,
    lookupEntry_setEntry_self]
  simp [List.append_assoc]

/-- Witness for `claim_C1_branch_append` at concrete arguments (two steps on
branch `"b"` of session `"s"`, starting from the empty store). -/
theorem claim_C1_witness :
    (let a1 : STArgs :=
      { thought := some "t1", nextThoughtNeeded := true, thoughtNumber := 2,
        totalThoughts := 3, sessionId := some "s", branchFromThought := some 1,
        branchId := some "b" }
     let a2 : STArgs :=
      { thought := some "t2", nextThoughtNeeded := true, thoughtNumber := 3,
        totalThoughts := 3, sessionId := some "s", branchFromThought := some 1,
        branchId := some "b" }
     let sid := defaultSid a1
     let s0 := (lookupEntry sid ([] : STStore)).getD (freshSession sid 10)
     let oldB := (lookupEntry "b" s0.branches).getD []
     let st1 := (handleSequentialThinking a1 10 []).1
     let st2 := (handleSequentialThinking a2 20 st1).1
     (lookupEntry sid st1).map (fun s => (s.steps, lookupEntry "b" s.branches)) =
        some (s0.steps, some (oldB ++ [mkStep a1 10])) ∧
     (lookupEntry sid st2).map (fun s => (s.steps, lookupEntry "b" s.branches)) =
        some (s0.steps, some (oldB ++ [mkStep a1 10, mkStep a2 20]))) := by
  exact claim_C1_branch_append 10 20 [] rfl (by decide) rfl (by decide) rfl rfl (by decide) rfl

/-- C2 (the code violates the claim): a `sequential_thinking` call with the
required `thought` argument absent throws (the `TypeError` raised by
`thought.substring` in the logging line) — but only after the handler has
already created session `"default"` and appended a step to it, so the
erroring call leaves the Session Store mutated, not unchanged. -/
theorem claim_C2_mutation_before_error :
    (let r := handleSequentialThinking
      { thought := none, nextThoughtNeeded := false, thoughtNumber := 1,
        totalThoughts := 1 } 1000 []
     r.2 = .error "TypeError: Cannot read properties of undefined (reading 'substring')" ∧
     (lookupEntry "default" r.1).map (fun s => s.steps.length) = some 1) :=
  ⟨rfl, rfl⟩

/-- C3 counterexample: session `"x"` is expired at the time of the call
(`lastUpdated = 0 < now - SESSION_TIMEOUT` for `now = 4000000`), yet the
`sequential_thinking` call naming `"x"` finds it and reuses its old state —
the surviving session keeps `created = 0`, the old high-water
`totalThoughts = 5` (the call passed 1), and grows the old `steps` log to
length 2. Had the expired session been invisible, the call would have built a
fresh session (`created = 4000000`, `totalThoughts = 1`, one step): the
reasoning tool-set sweeps at the END of the handler, after the lookup. -/
theorem claim_C3_counterexample :
    (let old : ThinkingSession :=
      { sessionId := "x", totalThoughts := 5, currentThought := 1,
        steps := [{ thoughtNumber := 1, thought := some "old thought", timestamp := 0,
                    isRevision := false, revisesThought := none,
                    branchFromThought := none, branchId := none }],
        branches := [], created := 0, lastUpdated := 0, isCompleted := false }
     let r := handleSequentialThinking
      { thought := some "new thought", nextThoughtNeeded := true, thoughtNumber := 1,
        totalThoughts := 1, sessionId := some "x" } 4000000 [("x", old)]
     old.lastUpdated < 4000000 - SESSION_TIMEOUT ∧
     (lookupEntry "x" r.1).map (fun s => (s.created, s.totalThoughts, s.steps.length)) =
       some (0, 5, 2)) :=
  ⟨by decide, rfl⟩

/-- C3 (amended): for the playwright and browser-use tool-sets — whose
handlers run the expiry sweep at the START of every invocation, before any
lookup — a session older than the tool-set's timeout is invisible to the
invocation: the handler reports "not found" and the session is gone from the
store. (For the reasoning tool-set the claim fails: its sweep runs at the end
of the handler, after the lookup — see the counterexample.) -/
theorem claim_C3_expiry_amended :
    (∀ (store : Playwright.PWStore) (a : Playwright.ClickArgs) (now : Nat) (sid : String)
        (s : Playwright.BrowserSession),
      (keysOf store).Nodup → a.sessionId = some sid → truthyStr a.selector = true →
      lookupEntry sid store = some s → s.lastUsed < now - Playwright.SESSION_TIMEOUT →
      (Playwright.clickHandler a now store).2 =
          .error ("Browser session '" ++ sid ++ "' not found. Please navigate to a page first.") ∧
        lookupEntry sid (Playwright.clickHandler a now store).1 = none) ∧
    (∀ (store : BrowserUse.BUStore) (a : BrowserUse.HistoryArgs) (now : Nat) (sid : String)
        (s : BrowserUse.BrowserUseSession),
      (keysOf store).Nodup → a.sessionId = some sid →
      lookupEntry sid store = some s → s.lastUsed < now - BrowserUse.SESSION_TIMEOUT →
      (BrowserUse.getConversationHistoryHandler a now store).2 =
          .error ("Session '" ++ sid ++ "' not found") ∧
        lookupEntry sid (BrowserUse.getConversationHistoryHandler a now store).1 = none) := by
  constructor
  · intro store a now sid s hnd ha hsel hs hexp
    have hnone : lookupEntry sid (Playwright.cleanupOldSessions now store) = none := by
      unfold Playwright.cleanupOldSessions
      exact lookupEntry_filter_drop hnd hs (by simp [hexp])
    constructor
    · simp [Playwright.clickHandler, hsel, ha, hnone]
    · simp [Playwright.clickHandler, hsel, ha, hnone]
  · intro store a now sid s hnd ha hs hexp
    have hnone : lookupEntry sid (BrowserUse.cleanupOldSessions now store) = none := by
      unfold BrowserUse.cleanupOldSessions
      exact lookupEntry_filter_drop hnd hs (by simp [hexp])
    constructor
    · simp [BrowserUse.getConversationHistoryHandler, ha, hnone]
    · simp [BrowserUse.getConversationHistoryHandler, ha, hnone]

/-- Witness for `claim_C3_expiry_amended`: a playwright session and a
browser-use session, both last used at time 0, looked up at `now = 4000000`
(past both timeouts). -/
theorem claim_C3_witness :
    (let pws : Playwright.BrowserSession :=
      { sessionId := "a", created := 0, lastUsed := 0, isActive := true }
     let bus : BrowserUse.BrowserUseSession :=
      { sessionId := "a", created := 0, lastUsed := 0, isActive := true,
        apiKey := "sk-0123456...", conversationHistory := [] }
     ((Playwright.clickHandler { selector := some "#btn", sessionId := some "a" }
          4000000 [("a", pws)]).2 =
        .error "Browser session 'a' not found. Please navigate to a page first." ∧
      lookupEntry "a" (Playwright.clickHandler { selector := some "#btn", sessionId := some "a" }
          4000000 [("a", pws)]).1 = none) ∧
     ((BrowserUse.getConversationHistoryHandler { sessionId := some "a" }
          4000000 [("a", bus)]).2 = .error "Session 'a' not found" ∧
      lookupEntry "a" (BrowserUse.getConversationHistoryHandler { sessionId := some "a" }
          4000000 [("a", bus)]).1 = none)) := by
  constructor
  · exact claim_C3_expiry_amended.1 _ _ 4000000 "a" _ (by decide) rfl (by decide) rfl (by decide)
  · exact claim_C3_expiry_amended.2 _ _ 4000000 "a" _ (by decide) rfl rfl (by decide)

/-! ### Claims on the protocol dispatcher -/

/-- C5: a `tools/call` whose tool name is not in the handler table yields an
error envelope (never a result) with code `-32000` and the request's `id`;
and every handler exception is caught and becomes an error envelope with code
`-32000` and the request's `id`, never an uncaught fault. -/
theorem claim_C5_error_envelope {α ρ : Type} (req : Protocol.MCPRequest α)
    (config : Protocol.ServerConfig α ρ) (p : Protocol.CallParams α)
    (hm : req.method = "tools/call") (hp : req.params = some p) :
    (lookupEntry p.name config.handlers = none →
      Protocol.handleMCPRequest req config =
        { jsonrpc := "2.0", id := req.id,
          outcome := .error { code := -32000, message := "Unknown tool: " ++ p.name } }) ∧
    (∀ (h : α → Except String ρ) (msg : String),
      lookupEntry p.name config.handlers = some h → h p.arguments = .error msg →
      Protocol.handleMCPRequest req config =
        { jsonrpc := "2.0", id := req.id,
          outcome := .error { code := -32000, message := msg } }) := by
  constructor
  · intro hnone
    simp [Protocol.handleMCPRequest, hm, hp, hnone]
  · intro h msg hsome herr
    simp [Protocol.handleMCPRequest, hm, hp, hsome, herr]

/-- Witness for `claim_C5_error_envelope`: a one-tool registry whose handler
throws; one call to an unknown name, one call reaching the throwing handler. -/
theorem claim_C5_witness :
    Protocol.handleMCPRequest
        { jsonrpc := "2.0", id := .num 7, method := "tools/call",
          params := some { name := "nosuch", arguments := 0 } }
        ({ name := "Test MCP Server", version := "1.0.0", tools := [],
           handlers := [("boomtool", fun _ => .error "boom")] } : Protocol.ServerConfig Nat Nat) =
      { jsonrpc := "2.0", id := .num 7,
        outcome := .error { code := -32000, message := "Unknown tool: " ++ "nosuch" } } ∧
    Protocol.handleMCPRequest
        { jsonrpc := "2.0", id := .str "r2", method := "tools/call",
          params := some { name := "boomtool", arguments := 0 } }
        ({ name := "Test MCP Server", version := "1.0.0", tools := [],
           handlers := [("boomtool", fun _ => .error "boom")] } : Protocol.ServerConfig Nat Nat) =
      { jsonrpc := "2.0", id := .str "r2",
        outcome := .error { code := -32000, message := "boom" } } := by
  constructor
  · exact (claim_C5_error_envelope
      { jsonrpc := "2.0", id := .num 7, method := "tools/call",
        params := some { name := "nosuch", arguments := 0 } }
      { name := "Test MCP Server", version := "1.0.0", tools := [],
        handlers := [("boomtool", fun _ => .error "boom")] }
      { name := "nosuch", arguments := 0 } rfl rfl).1 rfl
  · exact (claim_C5_error_envelope
      { jsonrpc := "2.0", id := .str "r2", method := "tools/call",
        params := some { name := "boomtool", arguments := 0 } }
      { name := "Test MCP Server", version := "1.0.0", tools := [],
        handlers := [("boomtool", fun _ => .error "boom")] }
      { name := "boomtool", arguments := 0 } rfl rfl).2
      (fun _ => .error "boom") "boom" rfl rfl

/-! ### Credential-shape validation lemmas -/

namespace SharedAuth

theorem splitOnSpace_ne_nil (l : List Char) : splitOnSpace l ≠ [] := by
  induction l with
  | nil => simp [splitOnSpace]
  | cons c rest ih =>
    by_cases h : c = ' '
    · simp [splitOnSpace, h]
    · simp only [splitOnSpace, if_neg h]
      cases hsp : splitOnSpace rest with
      | nil => simp
      | cons hd tl => simp

theorem splitOnSpace_append {A : List Char} (B : List Char) (h : ' ' ∉ A) :
    splitOnSpace (A ++ ' ' :: B) = A :: splitOnSpace B := by
  induction A with
  | nil => simp [splitOnSpace]
  | cons c rest ih =>
    have hc : c ≠ ' ' := fun he => h (he ▸ List.mem_cons_self _ _)
    have hr : ' ' ∉ rest := fun hm => h (List.mem_cons_of_mem _ hm)
    show splitOnSpace (c :: (rest ++ ' ' :: B)) = (c :: rest) :: splitOnSpace B
    rw [splitOnSpace, if_neg hc, ih hr]

theorem splitOnSpace_length_one {l : List Char} (h : (splitOnSpace l).length = 1) :
    splitOnSpace l = [l] := by
  induction l with
  | nil => rfl
  | cons c rest ih =>
    by_cases hc : c = ' '
    · exfalso
      rw [splitOnSpace, if_pos hc] at h
      have h0 : (splitOnSpace rest).length = 0 := by simpa using h
      exact splitOnSpace_ne_nil rest (List.length_eq_zero.mp h0)
    · rw [splitOnSpace, if_neg hc] at h ⊢
      cases hsp : splitOnSpace rest with
      | nil => exact absurd hsp (splitOnSpace_ne_nil rest)
      | cons hd tl =>
        rw [hsp] at h
        have h1 : ((c :: hd) :: tl).length = 1 := h
        have htl : tl = [] := List.length_eq_zero.mp (by simpa using h1)
        subst htl
        have hone : (splitOnSpace rest).length = 1 := by rw [hsp]; rfl
        have heq := ih hone
        rw [hsp] at heq
        have hhd : hd = rest := by
          have := List.head_eq_of_cons_eq heq
          exact this
        show (c :: hd) :: ([] : List (List Char)) = [c :: rest]
        rw [hhd]

/-- What `validateOpenAIKey` succeeding on the reconstructed header
`"Bearer " ++ k` says about the raw key `k`: it is space-free (so the split
yields exactly `["Bearer", k]`), carries the `sk-` prefix, and has at least 20
characters. -/
theorem validate_bearer_facts {k : String}
    (h : (validateOpenAIKey ("Bearer " ++ k)).success = true) :
    splitOnSpace k.data = [k.data] ∧ "sk-".data.isPrefixOf k.data = true ∧
      20 ≤ k.data.length := by
  have hdata : ("Bearer " ++ k).data = "Bearer".data ++ (' ' :: k.data) := by
    rw [String.data_append]
    rfl
  have hne : ("Bearer " ++ k) ≠ "" := by
    intro he
    have hd := congrArg String.data he
    rw [hdata] at hd
    simp at hd
  have hsplit : splitOnSpace ('B' :: 'e' :: 'a' :: 'r' :: 'e' :: 'r' :: ' ' :: k.data) =
      ['B', 'e', 'a', 'r', 'e', 'r'] :: splitOnSpace k.data :=
    splitOnSpace_append (A := ['B', 'e', 'a', 'r', 'e', 'r']) k.data (by decide)
  by_cases h1 : (splitOnSpace k.data).length = 1
  · have hs1 := splitOnSpace_length_one h1
    by_cases h2 : "sk-".data.isPrefixOf k.data = true
    · by_cases h3 : k.data.length < 20
      · exfalso
        have h3s : String.length k < 20 := h3
        simp [validateOpenAIKey, hne, hsplit, hs1, h2, h3s] at h
      · exact ⟨hs1, h2, by omega⟩
    · exfalso
      simp [validateOpenAIKey, hne, hsplit, hs1, h2] at h
  · exfalso
    simp [validateOpenAIKey, hne, hsplit, h1] at h

end SharedAuth

/-! ### Claims on the browser-use tool-set -/

/-- C8 counterexample: the key `"sk-aaaa bbbbbbbbbbbbbbbb"` passes the claim's
shape check (present, `sk-` prefix, ≥ 20 characters) yet the handler rejects
it: the validator re-parses `"Bearer " ++ apiKey`, and the space inside the
key splits the header into three parts ("Invalid Authorization format"), so
not every key passing the claimed shape check proceeds. -/
theorem claim_C8_counterexample :
    (let key := "sk-aaaa bbbbbbbbbbbbbbbb"
     let r := BrowserUse.naturalLanguageActionHandler
       { instruction := some "go to google", sessionId := some "s", apiKey := some key } 0 0 []
     ("sk-".data.isPrefixOf key.data = true ∧ 20 ≤ key.length) ∧
     r.2 = .error "Authentication failed: Invalid Authorization format. Required format: Bearer sk-..." ∧
     r.1 = []) :=
  ⟨⟨by decide, by decide⟩, rfl, rfl⟩

/-- C8 (amended): `browseruse_natural_action` shape-validates the credential
by re-parsing `"Bearer " ++ apiKey` with `validateOpenAIKey` — so it fails not
only for an absent key, a key without the `sk-` prefix or one shorter than 20
characters, but also for any key containing a space; on every such failure the
handler errors without creating or mutating any session. It contacts no
external verification service: every key the re-parse accepts (space-free,
`sk-`-prefixed, ≥ 20 characters) proceeds to a successful result. -/
theorem claim_C8_key_shape_amended (a : BrowserUse.NatActionArgs) (pick now : Nat)
    (store : BrowserUse.BUStore) (hnd : (keysOf store).Nodup) :
    ((SharedAuth.validateOpenAIKey ("Bearer " ++ a.apiKey.getD "")).success = false →
      (∃ m, (BrowserUse.naturalLanguageActionHandler a pick now store).2 = Except.error m) ∧
      (∀ (id : String) (s : BrowserUse.BrowserUseSession),
        lookupEntry id (BrowserUse.naturalLanguageActionHandler a pick now store).1 = some s →
        lookupEntry id store = some s)) ∧
    (truthyStr a.instruction = true → truthyStr a.apiKey = true →
      (SharedAuth.validateOpenAIKey ("Bearer " ++ a.apiKey.getD "")).success = true →
      ∃ r, (BrowserUse.naturalLanguageActionHandler a pick now store).2 = Except.ok r) := by
  constructor
  · intro hfail
    have hconc : ∀ m, BrowserUse.naturalLanguageActionHandler a pick now store =
        (BrowserUse.cleanupOldSessions now store, Except.error m) →
        (∃ m2, (BrowserUse.naturalLanguageActionHandler a pick now store).2 = Except.error m2) ∧
        (∀ (id : String) (s : BrowserUse.BrowserUseSession),
          lookupEntry id (BrowserUse.naturalLanguageActionHandler a pick now store).1 = some s →
          lookupEntry id store = some s) := by
      intro m hm
      constructor
      · exact ⟨m, by rw [hm]⟩
      · intro id s hs
        rw [hm] at hs
        exact lookupEntry_filter_some_imp hnd hs
    by_cases hi : truthyStr a.instruction = true
    · by_cases hk : truthyStr a.apiKey = true
      · exact hconc ("Authentication failed: " ++
          (SharedAuth.validateOpenAIKey ("Bearer " ++ a.apiKey.getD "")).error.getD "")
          (by simp [BrowserUse.naturalLanguageActionHandler, hi, hk, hfail])
      · exact hconc "OpenAI API key is required for browser-use functionality"
          (by simp [BrowserUse.naturalLanguageActionHandler, hi, hk])
    · exact hconc "Natural language instruction is required"
        (by simp [BrowserUse.naturalLanguageActionHandler, hi])
  · intro hi hk hsucc
    simp only [BrowserUse.naturalLanguageActionHandler]
    simp [hi, hk, hsucc]

/-- Witness for `claim_C8_key_shape_amended`: an absent key fails without
touching the (empty) store; the space-free key
`"sk-abcdefghijklmnopqrstuvwxyz"` proceeds. -/
theorem claim_C8_witness :
    ((SharedAuth.validateOpenAIKey
        ("Bearer " ++ ((none : Option String).getD ""))).success = false ∧
      (∃ m, (BrowserUse.naturalLanguageActionHandler
          { instruction := some "go", sessionId := some "s", apiKey := none } 0 0 []).2 =
        Except.error m) ∧
      (∀ (id : String) (s : BrowserUse.BrowserUseSession),
        lookupEntry id (BrowserUse.naturalLanguageActionHandler
          { instruction := some "go", sessionId := some "s", apiKey := none } 0 0 []).1 = some s →
        lookupEntry id ([] : BrowserUse.BUStore) = some s)) ∧
    ((SharedAuth.validateOpenAIKey
        ("Bearer " ++ ((some "sk-abcdefghijklmnopqrstuvwxyz" : Option String).getD ""))).success
          = true ∧
      ∃ r, (BrowserUse.naturalLanguageActionHandler
        { instruction := some "go", sessionId := some "s",
          apiKey := some "sk-abcdefghijklmnopqrstuvwxyz" } 0 0 []).2 = Except.ok r) := by
  constructor
  · refine ⟨by decide, ?_⟩
    exact (claim_C8_key_shape_amended
      { instruction := some "go", sessionId := some "s", apiKey := none } 0 0 []
      (by decide)).1 (by decide)
  · refine ⟨by decide, ?_⟩
    exact (claim_C8_key_shape_amended
      { instruction := some "go", sessionId := some "s",
        apiKey := some "sk-abcdefghijklmnopqrstuvwxyz" } 0 0 []
      (by decide)).2 (by decide) (by decide) (by decide)

/-- C9: `browseruse_navigate` never creates a session — (1) whatever the
arguments, an id absent from the store is still absent afterwards; (2) with
valid arguments and a session id missing from the (swept) store it throws the
"not found" error; (3) by contrast, `playwright_navigate` lazily creates a
fresh session (whose `created` stamp is the call time) for an unknown id. -/
theorem claim_C9_navigate_no_create :
    (∀ (a : BrowserUse.BUNavArgs) (now : Nat) (store : BrowserUse.BUStore) (id : String),
      (keysOf store).Nodup → lookupEntry id store = none →
      lookupEntry id (BrowserUse.browserUseNavigateHandler a now store).1 = none) ∧
    (∀ (a : BrowserUse.BUNavArgs) (now : Nat) (store : BrowserUse.BUStore) (sid : String),
      a.sessionId = some sid →
      (truthyStr a.url || truthyStr a.instruction) = true →
      truthyStr a.apiKey = true →
      (SharedAuth.validateOpenAIKey ("Bearer " ++ a.apiKey.getD "")).success = true →
      lookupEntry sid (BrowserUse.cleanupOldSessions now store) = none →
      (BrowserUse.browserUseNavigateHandler a now store).2 =
        Except.error ("Session '" ++ sid ++ "' not found. Please start with a natural language action first.")) ∧
    (∀ (validURL : String → Bool) (a : Playwright.NavArgs) (now : Nat)
        (store : Playwright.PWStore) (sid url : String),
      a.url = some url → url ≠ "" → validURL url = true → a.sessionId = some sid →
      lookupEntry sid (Playwright.cleanupOldSessions now store) = none →
      (lookupEntry sid (Playwright.navigateHandler validURL a now store).1).map
          (fun s => (s.pageUrl, s.created)) = some (some url, now)) := by
  refine ⟨?_, ?_, ?_⟩
  · intro a now store id hnd hidnone
    have hflt : lookupEntry id (BrowserUse.cleanupOldSessions now store) = none :=
      lookupEntry_filter_none hidnone
    by_cases h1 : (truthyStr a.url || truthyStr a.instruction) = true
    · by_cases h2 : truthyStr a.apiKey = true
      · by_cases h3 : (SharedAuth.validateOpenAIKey ("Bearer " ++ a.apiKey.getD "")).success = true
        · cases hl : lookupEntry (a.sessionId.getD "default")
              (BrowserUse.cleanupOldSessions now store) with
          | none => simpa [BrowserUse.browserUseNavigateHandler, h1, h2, h3, hl] using hflt
          | some s =>
            have hne : a.sessionId.getD "default" ≠ id := by
              intro he
              rw [he] at hl
              rw [lookupEntry_filter_some_imp hnd hl] at hidnone
              cases hidnone
            simp [BrowserUse.browserUseNavigateHandler, h1, h2, h3, hl]
            rw [lookupEntry_setEntry_ne _ _ hne]
            exact hflt
        · simpa [BrowserUse.browserUseNavigateHandler, h1, h2, h3] using hflt
      · simpa [BrowserUse.browserUseNavigateHandler, h1, h2] using hflt
    · simpa [BrowserUse.browserUseNavigateHandler, h1] using hflt
  · intro a now store sid hsid h1 h2 h3 hlnone
    simp [BrowserUse.browserUseNavigateHandler, h1, h2, h3, hsid, hlnone]
  · intro validURL a now store sid url hurl hne hval hsid hlnone
    have htr : truthyStr (some url) = true := by simp [truthyStr, hne]
    simp [Playwright.navigateHandler, htr, hurl, hval, hsid, hlnone,
      lookupEntry_setEntry_self]

/-- Witness for `claim_C9_navigate_no_create`: on the empty store,
`browseruse_navigate` with valid arguments and the defaulted-missing id
`"default"` throws "not found" and creates nothing, while
`playwright_navigate` creates session `"fresh"`. -/
theorem claim_C9_witness :
    ((keysOf ([] : BrowserUse.BUStore)).Nodup ∧
      lookupEntry "default" ([] : BrowserUse.BUStore) = none ∧
      lookupEntry "default"
        (BrowserUse.browserUseNavigateHandler
          { url := some "https://example.com", sessionId := some "default",
            apiKey := some "sk-abcdefghijklmnopqrstuvwxyz" } 5 []).1 = none) ∧
    ((BrowserUse.browserUseNavigateHandler
        { url := some "https://example.com", sessionId := some "default",
          apiKey := some "sk-abcdefghijklmnopqrstuvwxyz" } 5 []).2 =
      Except.error ("Session '" ++ "default" ++ "' not found. Please start with a natural language action first.")) ∧
    ((lookupEntry "fresh"
        (Playwright.navigateHandler (fun _ => true)
          { url := some "https://example.com", sessionId := some "fresh" } 5 []).1).map
        (fun s => (s.pageUrl, s.created)) = some (some "https://example.com", 5)) := by
  refine ⟨⟨by decide, rfl, ?_⟩, ?_, ?_⟩
  · exact claim_C9_navigate_no_create.1
      { url := some "https://example.com", sessionId := some "default",
        apiKey := some "sk-abcdefghijklmnopqrstuvwxyz" } 5 [] "default" (by decide) rfl
  · exact claim_C9_navigate_no_create.2.1
      { url := some "https://example.com", sessionId := some "default",
        apiKey := some "sk-abcdefghijklmnopqrstuvwxyz" } 5 [] "default" rfl (by decide)
      (by decide) (by decide) rfl
  · exact claim_C9_navigate_no_create.2.2 (fun _ => true)
      { url := some "https://example.com", sessionId := some "fresh" } 5 [] "fresh"
      "https://example.com" rfl (by decide) rfl rfl rfl

/-- At time 0 the browser-use sweep removes nothing (the JS cutoff is a
negative date). -/
theorem bu_cleanup_zero (store : BrowserUse.BUStore) :
    BrowserUse.cleanupOldSessions 0 store = store := by
  simp [BrowserUse.cleanupOldSessions, List.filter_true]

/-- One `runNaturalActions` step (valid key, non-empty instruction, `pick = 0`,
`now = 0`): the session at `sid` afterwards — the previous session with its
history `capPush`-ed, or a fresh session whose history is `capPush [] entry`. -/
theorem natAct_lookup_zero (key sid i : String) (store : BrowserUse.BUStore)
    (hi : i ≠ "") (hkey0 : key ≠ "")
    (hs : (SharedAuth.validateOpenAIKey ("Bearer " ++ key)).success = true) :
    lookupEntry sid ((BrowserUse.naturalLanguageActionHandler
        { instruction := some i, sessionId := some sid, apiKey := some key } 0 0 store).1) =
      some (match lookupEntry sid store with
        | some s0 =>
          { s0 with
            lastUsed := 0
            conversationHistory :=
              BrowserUse.capPush s0.conversationHistory (BrowserUse.entryFor i) }
        | none =>
          { sessionId := sid
            created := 0
            lastUsed := 0
            currentUrl := none
            isActive := true
            apiKey := key.take 10 ++ "..."
            conversationHistory := BrowserUse.capPush [] (BrowserUse.entryFor i) }) := by
  have hi' : truthyStr (some i) = true := by simp [truthyStr, hi]
  have hk' : truthyStr (some key) = true := by simp [truthyStr, hkey0]
  cases hl : lookupEntry sid store with
  | none =>
    simp [BrowserUse.naturalLanguageActionHandler, hi', hk', hs, bu_cleanup_zero, hl,
      lookupEntry_setEntry_self, BrowserUse.entryFor]
    rfl
  | some s0 =>
    simp [BrowserUse.naturalLanguageActionHandler, hi', hk', hs, bu_cleanup_zero, hl,
      lookupEntry_setEntry_self, BrowserUse.entryFor]
    rfl

/-- The history after a run of natural-action calls is the `capPush` fold of
the per-instruction entries over the starting session's history. -/
theorem runNat_history (key : String) (hkey0 : key ≠ "")
    (hs : (SharedAuth.validateOpenAIKey ("Bearer " ++ key)).success = true) :
    ∀ (ins : List String) (sid : String) (store : BrowserUse.BUStore)
      (s0 : BrowserUse.BrowserUseSession),
      (∀ i ∈ ins, i ≠ "") → lookupEntry sid store = some s0 →
      (lookupEntry sid (BrowserUse.runNaturalActions key sid ins store)).map
          BrowserUse.BrowserUseSession.conversationHistory =
        some (ins.foldl (fun h i => BrowserUse.capPush h (BrowserUse.entryFor i))
          s0.conversationHistory) := by
  intro ins
  induction ins with
  | nil =>
    intro sid store s0 _ hl
    simp [BrowserUse.runNaturalActions, hl]
  | cons i rest ih =>
    intro sid store s0 hins hl
    have hi : i ≠ "" := hins i (List.mem_cons_self _ _)
    have hstep := natAct_lookup_zero key sid i store hi hkey0 hs
    rw [hl] at hstep
    have hfold := ih sid _ _ (fun j hj => hins j (List.mem_cons_of_mem _ hj)) hstep
    simpa [BrowserUse.runNaturalActions] using hfold

/-- Below the cap, `capPush` is a plain append. -/
theorem capPush_small {h : List BrowserUse.ConversationEntry} (e : BrowserUse.ConversationEntry)
    (hlen : h.length < 50) : BrowserUse.capPush h e = h ++ [e] := by
  simp only [BrowserUse.capPush]
  rw [if_neg]
  simp only [List.length_append, List.length_cons, List.length_nil]
  omega

/-- At the cap, `capPush` appends and drops the oldest entry. -/
theorem capPush_big {h : List BrowserUse.ConversationEntry} (e : BrowserUse.ConversationEntry)
    (hlen : h.length = 50) : BrowserUse.capPush h e = (h ++ [e]).drop 1 := by
  simp only [BrowserUse.capPush]
  rw [if_pos (by simp [hlen])]
  congr 1
  simp [hlen]

/-- The `capPush` fold from the empty history keeps exactly the last
`min n 50` entries, in order. -/
theorem capPush_foldl (es : List BrowserUse.ConversationEntry) :
    es.foldl BrowserUse.capPush [] = es.drop (es.length - 50) ∧
    (es.foldl BrowserUse.capPush []).length = min es.length 50 := by
  induction es using List.reverseRecOn with
  | nil => simp
  | append_singleton es e ih =>
    obtain ⟨ih1, ih2⟩ := ih
    rw [List.foldl_append, List.foldl_cons, List.foldl_nil]
    by_cases hL : es.length < 50
    · have hlen : (es.foldl BrowserUse.capPush []).length < 50 := by rw [ih2]; omega
      rw [capPush_small e hlen, ih1]
      constructor
      · have h0 : es.length - 50 = 0 := by omega
        have h0' : (es ++ [e]).length - 50 = 0 := by
          simp only [List.length_append, List.length_cons, List.length_nil]
          omega
        rw [h0, h0', List.drop_zero, List.drop_zero]
      · simp only [List.length_append, List.length_drop, List.length_cons, List.length_nil]
        omega
    · have hlen : (es.foldl BrowserUse.capPush []).length = 50 := by rw [ih2]; omega
      rw [capPush_big e hlen, ih1]
      constructor
      · have hidx : (es ++ [e]).length - 50 = 1 + (es.length - 50) := by
          simp only [List.length_append, List.length_cons, List.length_nil]
          omega
        rw [hidx, List.drop_append_of_le_length (by rw [List.length_drop]; omega),
          List.drop_append_of_le_length (by omega), List.drop_drop,
          Nat.add_comm (es.length - 50) 1]
      · simp only [List.length_drop, List.length_append, List.length_cons, List.length_nil]
        omega

/-- Full specification of a non-empty run of `browseruse_natural_action`
calls on session `"s"` from the empty store: the history holds the last
`min n 50` instructions in submission order. -/
theorem runNat_spec (key : String) (hkey0 : key ≠ "")
    (hs : (SharedAuth.validateOpenAIKey ("Bearer " ++ key)).success = true) :
    ∀ (ins : List String), ins ≠ [] → (∀ i ∈ ins, i ≠ "") →
    (lookupEntry "s" (BrowserUse.runNaturalActions key "s" ins [])).map
        (fun s => (s.conversationHistory.map BrowserUse.ConversationEntry.instruction,
                   s.conversationHistory.length)) =
      some (ins.drop (ins.length - 50), min ins.length 50) := by
  intro ins hne hins
  cases ins with
  | nil => exact absurd rfl hne
  | cons i rest =>
    have hi : i ≠ "" := hins i (List.mem_cons_self _ _)
    have hstep := natAct_lookup_zero key "s" i [] hi hkey0 hs
    rw [show lookupEntry "s" ([] : BrowserUse.BUStore) = none from rfl] at hstep
    have hhist := runNat_history key hkey0 hs rest "s" _ _
      (fun j hj => hins j (List.mem_cons_of_mem _ hj)) hstep
    have hH : ((i :: rest).map BrowserUse.entryFor).foldl BrowserUse.capPush [] =
        rest.foldl (fun h j => BrowserUse.capPush h (BrowserUse.entryFor j))
          (BrowserUse.capPush [] (BrowserUse.entryFor i)) := by
      rw [List.foldl_map, List.foldl_cons]
    rw [← hH] at hhist
    obtain ⟨hc1, hc2⟩ := capPush_foldl ((i :: rest).map BrowserUse.entryFor)
    show (lookupEntry "s" (BrowserUse.runNaturalActions key "s" rest
        ((BrowserUse.naturalLanguageActionHandler
          { instruction := some i, sessionId := some "s", apiKey := some key } 0 0 []).1))).map
        (fun s => (s.conversationHistory.map BrowserUse.ConversationEntry.instruction,
                   s.conversationHistory.length)) = _
    cases hlk : lookupEntry "s" (BrowserUse.runNaturalActions key "s" rest
        ((BrowserUse.naturalLanguageActionHandler
          { instruction := some i, sessionId := some "s", apiKey := some key } 0 0 []).1)) with
    | none => rw [hlk] at hhist; cases hhist
    | some sess =>
      rw [hlk] at hhist
      simp only [Option.map_some'] at hhist ⊢
      have hsess : sess.conversationHistory =
          ((i :: rest).map BrowserUse.entryFor).foldl BrowserUse.capPush [] :=
        Option.some.inj hhist
      rw [hsess, hc2, hc1]
      have hdrop : (((i :: rest).map BrowserUse.entryFor).drop
            (((i :: rest).map BrowserUse.entryFor).length - 50)).map
            BrowserUse.ConversationEntry.instruction =
          (i :: rest).drop ((i :: rest).length - 50) := by
        rw [← List.map_drop]
        simp [List.map_map, List.length_map, Function.comp_def, BrowserUse.entryFor]
      rw [hdrop]
      simp [List.length_map, Function.comp_def, BrowserUse.entryFor]

/-- C4: after a run of `n` successful `browseruse_natural_action` calls on one
session, `conversationHistory` holds exactly `min n 50` entries — the most
recent `min n 50` instructions in submission order; in particular, after 60
instructions it holds exactly the last 50, in order. -/
theorem claim_C4_bounded_history (key : String) (ins : List String) (hkey0 : key ≠ "")
    (hs : (SharedAuth.validateOpenAIKey ("Bearer " ++ key)).success = true)
    (hne : ins ≠ []) (hins : ∀ i ∈ ins, i ≠ "") :
    ((lookupEntry "s" (BrowserUse.runNaturalActions key "s" ins [])).map
        (fun s => (s.conversationHistory.map BrowserUse.ConversationEntry.instruction,
                   s.conversationHistory.length)) =
      some (ins.drop (ins.length - 50), min ins.length 50)) ∧
    ((lookupEntry "s" (BrowserUse.runNaturalActions key "s" (List.replicate 60 "go") [])).map
        (fun s => (s.conversationHistory.map BrowserUse.ConversationEntry.instruction,
                   s.conversationHistory.length)) =
      some (List.replicate 50 "go", 50)) := by
  refine ⟨runNat_spec key hkey0 hs ins hne hins, ?_⟩
  have h := runNat_spec key hkey0 hs (List.replicate 60 "go") (by simp)
    (by
      intro i hi
      rw [List.eq_of_mem_replicate hi]
      decide)
  simpa [List.drop_replicate] using h

/-- Witness for `claim_C4_bounded_history`: three instructions with a valid
key — the history holds all three in order (and the 60-instruction conjunct
is instantiated alongside). -/
theorem claim_C4_witness :
    (("sk-abcdefghijklmnopqrstuvwxyz" : String) ≠ "" ∧
     (SharedAuth.validateOpenAIKey ("Bearer " ++ "sk-abcdefghijklmnopqrstuvwxyz")).success = true ∧
     (["one", "two", "three"] : List String) ≠ [] ∧
     (∀ i ∈ (["one", "two", "three"] : List String), i ≠ "")) ∧
    ((lookupEntry "s" (BrowserUse.runNaturalActions "sk-abcdefghijklmnopqrstuvwxyz" "s"
        ["one", "two", "three"] [])).map
        (fun s => (s.conversationHistory.map BrowserUse.ConversationEntry.instruction,
                   s.conversationHistory.length)) =
      some ((["one", "two", "three"] : List String).drop
        ((["one", "two", "three"] : List String).length - 50),
        min (["one", "two", "three"] : List String).length 50)) ∧
    ((lookupEntry "s" (BrowserUse.runNaturalActions "sk-abcdefghijklmnopqrstuvwxyz" "s"
        (List.replicate 60 "go") [])).map
        (fun s => (s.conversationHistory.map BrowserUse.ConversationEntry.instruction,
                   s.conversationHistory.length)) =
      some (List.replicate 50 "go", 50)) := by
  refine ⟨⟨by decide, by decide, by decide, by decide⟩, ?_, ?_⟩
  · exact (claim_C4_bounded_history "sk-abcdefghijklmnopqrstuvwxyz" ["one", "two", "three"]
      (by decide) (by decide) (by decide) (by decide)).1
  · exact (claim_C4_bounded_history "sk-abcdefghijklmnopqrstuvwxyz" ["one", "two", "three"]
      (by decide) (by decide) (by decide) (by decide)).2

/-- An entry of `setEntry k v l` is the new binding or an entry of `l`. -/
theorem mem_setEntry {α : Type} {e : String × α} {k : String} {v : α} {l : List (String × α)}
    (h : e ∈ setEntry k v l) : e = (k, v) ∨ e ∈ l := by
  induction l with
  | nil => simpa [setEntry] using h
  | cons f rest ih =>
    obtain ⟨k', v'⟩ := f
    by_cases h0 : k' = k
    · rw [setEntry_cons, if_pos h0] at h
      rcases List.mem_cons.mp h with he | hm
      · exact Or.inl he
      · exact Or.inr (List.mem_cons_of_mem _ hm)
    · rw [setEntry_cons, if_neg h0] at h
      rcases List.mem_cons.mp h with he | hm
      · exact Or.inr (he ▸ List.mem_cons_self _ _)
      · rcases ih hm with he | hm'
        · exact Or.inl he
        · exact Or.inr (List.mem_cons_of_mem _ hm')

/-- The store after `browseruse_natural_action`: either just the sweep (error
paths), or the sweep plus one `setEntry` whose session either keeps the
`apiKey` field of a surviving session or stores the truncated form of a key
that passed validation. -/
theorem natAct_store_cases (a : BrowserUse.NatActionArgs) (pick now : Nat)
    (st : BrowserUse.BUStore) :
    (BrowserUse.naturalLanguageActionHandler a pick now st).1 =
        BrowserUse.cleanupOldSessions now st ∨
    ∃ (sid : String) (s1 : BrowserUse.BrowserUseSession),
      (BrowserUse.naturalLanguageActionHandler a pick now st).1 =
          setEntry sid s1 (BrowserUse.cleanupOldSessions now st) ∧
      ((s1.apiKey = (a.apiKey.getD "").take 10 ++ "..." ∧
          (SharedAuth.validateOpenAIKey ("Bearer " ++ a.apiKey.getD "")).success = true) ∨
        ∃ s0, lookupEntry sid (BrowserUse.cleanupOldSessions now st) = some s0 ∧
          s1.apiKey = s0.apiKey) := by
  by_cases hi : truthyStr a.instruction = true
  · by_cases hk : truthyStr a.apiKey = true
    · by_cases hv : (SharedAuth.validateOpenAIKey ("Bearer " ++ a.apiKey.getD "")).success = true
      · cases hl : lookupEntry (a.sessionId.getD "default")
            (BrowserUse.cleanupOldSessions now st) with
        | none =>
          exact Or.inr ⟨a.sessionId.getD "default",
            { sessionId := a.sessionId.getD "default"
              created := now
              lastUsed := now
              currentUrl := none
              isActive := true
              apiKey := (a.apiKey.getD "").take 10 ++ "..."
              conversationHistory := BrowserUse.capPush []
                { timestamp := now, instruction := a.instruction.getD "",
                  action := BrowserUse.mockActions.getD (pick % 6) "", success := true } },
            by simp [BrowserUse.naturalLanguageActionHandler, hi, hk, hv, hl],
            Or.inl ⟨rfl, hv⟩⟩
        | some s0 =>
          exact Or.inr ⟨a.sessionId.getD "default",
            { s0 with
              lastUsed := now
              conversationHistory := BrowserUse.capPush s0.conversationHistory
                { timestamp := now, instruction := a.instruction.getD "",
                  action := BrowserUse.mockActions.getD (pick % 6) "", success := true } },
            by simp [BrowserUse.naturalLanguageActionHandler, hi, hk, hv, hl],
            Or.inr ⟨s0, hl, rfl⟩⟩
      · exact Or.inl (by simp [BrowserUse.naturalLanguageActionHandler, hi, hk, hv])
    · exact Or.inl (by simp [BrowserUse.naturalLanguageActionHandler, hi, hk])
  · exact Or.inl (by simp [BrowserUse.naturalLanguageActionHandler, hi])

/-- The store after `browseruse_navigate`: the sweep, possibly plus one
`setEntry` that keeps a surviving session's `apiKey`. -/
theorem buNav_store_cases (a : BrowserUse.BUNavArgs) (now : Nat) (st : BrowserUse.BUStore) :
    (BrowserUse.browserUseNavigateHandler a now st).1 = BrowserUse.cleanupOldSessions now st ∨
    ∃ (sid : String) (s1 : BrowserUse.BrowserUseSession),
      (BrowserUse.browserUseNavigateHandler a now st).1 =
          setEntry sid s1 (BrowserUse.cleanupOldSessions now st) ∧
      ∃ s0, lookupEntry sid (BrowserUse.cleanupOldSessions now st) = some s0 ∧
        s1.apiKey = s0.apiKey := by
  by_cases h1 : (truthyStr a.url || truthyStr a.instruction) = true
  · by_cases hk : truthyStr a.apiKey = true
    · by_cases hv : (SharedAuth.validateOpenAIKey ("Bearer " ++ a.apiKey.getD "")).success = true
      · cases hl : lookupEntry (a.sessionId.getD "default")
            (BrowserUse.cleanupOldSessions now st) with
        | none =>
          exact Or.inl (by simp [BrowserUse.browserUseNavigateHandler, h1, hk, hv, hl])
        | some s0 =>
          exact Or.inr ⟨a.sessionId.getD "default", { s0 with lastUsed := now, currentUrl := a.url },
            by simp [BrowserUse.browserUseNavigateHandler, h1, hk, hv, hl], s0, hl, rfl⟩
      · exact Or.inl (by simp [BrowserUse.browserUseNavigateHandler, h1, hk, hv])
    · exact Or.inl (by simp [BrowserUse.browserUseNavigateHandler, h1, hk])
  · exact Or.inl (by simp [BrowserUse.browserUseNavigateHandler, h1])

/-- The store after `browseruse_conversation_history`: the sweep, possibly
plus one `setEntry` that keeps a surviving session's `apiKey`. -/
theorem buHistory_store_cases (a : BrowserUse.HistoryArgs) (now : Nat)
    (st : BrowserUse.BUStore) :
    (BrowserUse.getConversationHistoryHandler a now st).1 =
        BrowserUse.cleanupOldSessions now st ∨
    ∃ (sid : String) (s1 : BrowserUse.BrowserUseSession),
      (BrowserUse.getConversationHistoryHandler a now st).1 =
          setEntry sid s1 (BrowserUse.cleanupOldSessions now st) ∧
      ∃ s0, lookupEntry sid (BrowserUse.cleanupOldSessions now st) = some s0 ∧
        s1.apiKey = s0.apiKey := by
  cases hl : lookupEntry (a.sessionId.getD "default")
      (BrowserUse.cleanupOldSessions now st) with
  | none => exact Or.inl (by simp [BrowserUse.getConversationHistoryHandler, hl])
  | some s0 =>
    exact Or.inr ⟨a.sessionId.getD "default", { s0 with lastUsed := now },
      by simp [BrowserUse.getConversationHistoryHandler, hl], s0, hl, rfl⟩

/-- Key invariant of every reachable browser-use store: each stored session's
`apiKey` field is the 10-character-prefix-plus-`"..."` truncation of some key
that passed shape validation. -/
theorem bu_key_invariant {st : List (String × BrowserUse.BrowserUseSession)}
    (hr : BrowserUse.Reachable st) :
    ∀ e ∈ st, ∃ k : String,
      (SharedAuth.validateOpenAIKey ("Bearer " ++ k)).success = true ∧
      e.2.apiKey = k.take 10 ++ "..." := by
  induction hr with
  | empty => intro e he; cases he
  | natAction a pick now st' hst ih =>
    intro e he
    rcases natAct_store_cases a pick now st' with hcase | ⟨sid, s1, heq, hkey⟩
    · rw [hcase] at he
      exact ih e (List.mem_of_mem_filter he)
    · rw [heq] at he
      rcases mem_setEntry he with he1 | he2
      · rcases hkey with ⟨hk1, hv⟩ | ⟨s0, hl, hk1⟩
        · exact ⟨a.apiKey.getD "", hv, by rw [he1]; exact hk1⟩
        · obtain ⟨k, hkv, hka⟩ :=
            ih (sid, s0) (List.mem_of_mem_filter (lookupEntry_mem hl))
          exact ⟨k, hkv, by rw [he1]; show s1.apiKey = _; rw [hk1]; exact hka⟩
      · exact ih e (List.mem_of_mem_filter he2)
  | navigate a now st' hst ih =>
    intro e he
    rcases buNav_store_cases a now st' with hcase | ⟨sid, s1, heq, s0, hl, hk1⟩
    · rw [hcase] at he
      exact ih e (List.mem_of_mem_filter he)
    · rw [heq] at he
      rcases mem_setEntry he with he1 | he2
      · obtain ⟨k, hkv, hka⟩ :=
          ih (sid, s0) (List.mem_of_mem_filter (lookupEntry_mem hl))
        exact ⟨k, hkv, by rw [he1]; show s1.apiKey = _; rw [hk1]; exact hka⟩
      · exact ih e (List.mem_of_mem_filter he2)
  | history a now st' hst ih =>
    intro e he
    rcases buHistory_store_cases a now st' with hcase | ⟨sid, s1, heq, s0, hl, hk1⟩
    · rw [hcase] at he
      exact ih e (List.mem_of_mem_filter he)
    · rw [heq] at he
      rcases mem_setEntry he with he1 | he2
      · obtain ⟨k, hkv, hka⟩ :=
          ih (sid, s0) (List.mem_of_mem_filter (lookupEntry_mem hl))
        exact ⟨k, hkv, by rw [he1]; show s1.apiKey = _; rw [hk1]; exact hka⟩
      · exact ih e (List.mem_of_mem_filter he2)
  | listSessions now st' hst ih =>
    intro e he
    exact ih e (List.mem_of_mem_filter he)

/-- The truncated form `k.take 10 ++ "..."` of a ≥ 20-character key has
exactly 13 characters. -/
theorem bu_truncated_length {k : String} (hk : 20 ≤ k.data.length) :
    (k.take 10 ++ "...").data.length = 13 := by
  rw [String.data_append]
  simp [List.length_append]
  have hdl : k.data.length = k.length := rfl
  omega

/-- C10: in every reachable browser-use store, each session's stored `apiKey`
is the first 10 characters of a validated (hence ≥ 20-character) key followed
by `"..."` — never the complete key; the session-listing tool exposes exactly
this stored truncated form. -/
theorem claim_C10_truncated_key (st : BrowserUse.BUStore) (hr : BrowserUse.Reachable st) :
    (∀ (id : String) (s : BrowserUse.BrowserUseSession), lookupEntry id st = some s →
      ∃ k : String, (SharedAuth.validateOpenAIKey ("Bearer " ++ k)).success = true ∧
        s.apiKey = k.take 10 ++ "..." ∧ s.apiKey ≠ k) ∧
    (∀ (now : Nat) (summ : BrowserUse.SessionSummary),
      summ ∈ (BrowserUse.listBrowserUseSessionsHandler now st).2 →
      ∃ k : String, (SharedAuth.validateOpenAIKey ("Bearer " ++ k)).success = true ∧
        summ.apiKeyPreview = k.take 10 ++ "..." ∧ summ.apiKeyPreview ≠ k) := by
  have hderive : ∀ (s : BrowserUse.BrowserUseSession),
      (∃ k : String, (SharedAuth.validateOpenAIKey ("Bearer " ++ k)).success = true ∧
        s.apiKey = k.take 10 ++ "...") →
      ∃ k : String, (SharedAuth.validateOpenAIKey ("Bearer " ++ k)).success = true ∧
        s.apiKey = k.take 10 ++ "..." ∧ s.apiKey ≠ k := by
    intro s ⟨k, hv, hka⟩
    refine ⟨k, hv, hka, fun he => ?_⟩
    have hlen := (SharedAuth.validate_bearer_facts hv).2.2
    have h13 := bu_truncated_length hlen
    rw [← hka, he] at h13
    omega
  constructor
  · intro id s hl
    exact hderive s (bu_key_invariant hr (id, s) (lookupEntry_mem hl))
  · intro now summ hmem
    simp only [BrowserUse.listBrowserUseSessionsHandler, List.mem_map] at hmem
    obtain ⟨e, hemem, hsumm⟩ := hmem
    obtain ⟨k, hkv, hka⟩ := bu_key_invariant hr e (List.mem_of_mem_filter hemem)
    have hpre : summ.apiKeyPreview = e.2.apiKey := by rw [← hsumm]
    obtain ⟨k', hv', hka', hne'⟩ := hderive e.2 ⟨k, hkv, hka⟩
    exact ⟨k', hv', by rw [hpre]; exact hka', by rw [hpre]; exact hne'⟩

/-- Witness for `claim_C10_truncated_key`: the store reached by one
successful `browseruse_natural_action` call from the empty store. -/
theorem claim_C10_witness :
    (∀ (id : String) (s : BrowserUse.BrowserUseSession),
      lookupEntry id (BrowserUse.naturalLanguageActionHandler
        { instruction := some "go", sessionId := some "s",
          apiKey := some "sk-abcdefghijklmnopqrstuvwxyz" } 0 0 []).1 = some s →
      ∃ k : String, (SharedAuth.validateOpenAIKey ("Bearer " ++ k)).success = true ∧
        s.apiKey = k.take 10 ++ "..." ∧ s.apiKey ≠ k) ∧
    (∀ (now : Nat) (summ : BrowserUse.SessionSummary),
      summ ∈ (BrowserUse.listBrowserUseSessionsHandler now
        (BrowserUse.naturalLanguageActionHandler
          { instruction := some "go", sessionId := some "s",
            apiKey := some "sk-abcdefghijklmnopqrstuvwxyz" } 0 0 []).1).2 →
      ∃ k : String, (SharedAuth.validateOpenAIKey ("Bearer " ++ k)).success = true ∧
        summ.apiKeyPreview = k.take 10 ++ "..." ∧ summ.apiKeyPreview ≠ k) :=
  claim_C10_truncated_key _
    (BrowserUse.Reachable.natAction
      { instruction := some "go", sessionId := some "s",
        apiKey := some "sk-abcdefghijklmnopqrstuvwxyz" } 0 0 []
      BrowserUse.Reachable.empty)
